import Mathlib

/-!
Verification development for the PDF bookmark tool
(`pdf_bookmark_tool.py`).

The tool has three core pieces, embedded here as pure Lean functions:

* `parse_bookmark_file` — turns the lines of the bookmark text file into
  flat `(level, title, page)` records, applying the page offset and
  skipping blank, comment and malformed lines (the regex
  `^(\d+)\s+(.+?)\s+(\d+)$` is embedded as an explicit backtracking
  matcher over character lists);
* `create_bookmark_tree` — the stack-of-parent-lists algorithm turning
  the flat record list into a forest of outline nodes;
* the attachment walker (`attachTopLevel` / `add_bookmarks_recursively`
  plus the advisory range check `checkPageRange`), and the surrounding
  `add_bookmarks_to_pdf` orchestration whose external PDF collaborator
  (PyPDF2) is abstracted as an environment of `Except`-valued steps.

Python strings are modelled as `String` (operated on through `.data`,
their character list); Python ints as `Int`/`Nat`; a Python dict node
`{title, page[, children]}` as an inductive `Node` whose `children`
field is an `Option (List Node)` so that the presence of the
`children` key is observable; a raised exception as a `none`/`.error`
result.
-/

namespace PdfMarker

/-- Characters treated as whitespace by the embedding (the ASCII subset of
Python `\s` and `str.strip`): space, tab, newline, carriage return,
vertical tab, form feed. -/
def isSpaceChar (c : Char) : Bool :=
  c == ' ' || c == '\t' || c == '\n' || c == '\r' ||
    c == Char.ofNat 11 || c == Char.ofNat 12

/-- Embedding of Python `str.strip()`: drop whitespace from both ends. -/
def stripChars (cs : List Char) : List Char :=
  ((cs.dropWhile isSpaceChar).reverse.dropWhile isSpaceChar).reverse

/-- Embedding of `line.strip()` on a `String`. -/
def stripLine (s : String) : String :=
  String.mk (stripChars s.data)

/-- Embedding of the skip test `if not line or line.startswith ... ` at line 35
of the source: the (already stripped) line is empty or its first
character is the comment mark. -/
def skipLine (l : String) : Bool :=
  l.data.isEmpty || (l.data.head? == some '#')

/-- Value of a decimal digit string, as computed by Python `int` on the
digits captured by the regex groups. -/
def digitsToNat (cs : List Char) : Nat :=
  cs.foldl (fun a c => a * 10 + (c.toNat - 48)) 0

/-- Matcher for the tail `\s+(\d+)$` of the line regex.  The greedy `\s+`
takes the maximal whitespace run; giving characters back cannot help,
since `\d` matches no whitespace character, so this tail is
deterministic: after the maximal run the rest must be one or more
digits reaching the end. -/
def tailMatch (cs : List Char) : Option Nat :=
  let sp := cs.takeWhile isSpaceChar
  let rest := cs.drop sp.length
  if sp.isEmpty then none
  else if rest.isEmpty then none
  else if rest.all Char.isDigit then some (digitsToNat rest) else none

/-- Matcher for `(.+?)\s+(\d+)$`: the lazy group tries the shortest title
first, extending one character at a time (the dot never matches a
newline), until the remainder matches `tailMatch`.  Returns the title
characters and the trailing page number. -/
def lazyTitle : List Char → List Char → Option (List Char × Nat)
  | _, [] => none
  | acc, c :: rest =>
    if c == '\n' then none
    else
      match tailMatch rest with
      | some p => some (acc ++ [c], p)
      | none => lazyTitle (acc ++ [c]) rest

/-- Backtracking for the first `\s+` of the regex: greedy, so the longest
whitespace prefix (length `n`) is tried first, then shorter ones down
to one character. -/
def trySpaces : Nat → List Char → Option (List Char × Nat)
  | 0, _ => none
  | n + 1, cs =>
    match lazyTitle [] (cs.drop (n + 1)) with
    | some r => some r
    | none => trySpaces n cs

/-- Matcher for `\s+(.+?)\s+(\d+)$`, the part of the line regex after the
level group. -/
def matchAfterLevel (cs : List Char) : Option (List Char × Nat) :=
  let sp := cs.takeWhile isSpaceChar
  if sp.isEmpty then none else trySpaces sp.length cs

/-- Embedding of `re.match` with the anchored pattern
`^(\d+)\s+(.+?)\s+(\d+)$` (line 39 of the source): the leading greedy
`(\d+)` is the maximal digit run (shortening it leaves a digit in
front of `\s+`, which always fails, so no backtracking is needed
there).  Returns `(level, title, page)` on a match. -/
def matchLine (s : String) : Option (Nat × String × Nat) :=
  let cs := s.data
  let ds := cs.takeWhile Char.isDigit
  if ds.isEmpty then none
  else
    match matchAfterLevel (cs.drop ds.length) with
    | some (t, p) => some (digitsToNat ds, String.mk t, p)
    | none => none

/-- Flat record produced by the parser: `{'level': ..., 'title': ...,
'page': adjusted_page}` from lines 48-52 of the source. -/
structure FlatRecord where
  level : Nat
  title : String
  page : Int
  deriving DecidableEq

/-- Result of `parse_bookmark_file`: the record list plus the warnings
printed for malformed lines (each warning identified by the offending
stripped line). -/
structure ParseResult where
  records : List FlatRecord
  warnings : List String
  deriving DecidableEq

/-- Body of the per-line loop of `parse_bookmark_file` (lines 33-54):
strip, skip blank and comment lines, match the regex; on a match
append the record with `adjusted_page = page + page_offset - 1`, on a
failure record a warning for the line. -/
def parseLineStep (off : Int) (acc : ParseResult) (line : String) : ParseResult :=
  let l := stripLine line
  if skipLine l then acc
  else
    match matchLine l with
    | some (lv, t, p) =>
      ⟨acc.records ++ [⟨lv, t, (p : Int) + off - 1⟩], acc.warnings⟩
    | none => ⟨acc.records, acc.warnings ++ [l]⟩

/-- Embedding of `parse_bookmark_file` (lines 24-56); the file is given as
its list of lines. -/
def parse_bookmark_file (lines : List String) (page_offset : Int) : ParseResult :=
  lines.foldl (parseLineStep page_offset) ⟨[], []⟩

/-- Record the parser produces for a single line, if any (specification of
one loop iteration, used to characterise the whole parse). -/
def lineRecord (off : Int) (line : String) : Option FlatRecord :=
  let l := stripLine line
  if skipLine l then none
  else
    match matchLine l with
    | some (lv, t, p) => some ⟨lv, t, (p : Int) + off - 1⟩
    | none => none

/-- Warning the parser emits for a single line, if any. -/
def lineWarning (line : String) : Option String :=
  let l := stripLine line
  if skipLine l then none
  else
    match matchLine l with
    | some _ => none
    | none => some l

/-- Outline node built by `create_bookmark_tree`: a dict with `title` and
`page`, and a `children` key that exists only once the node has been
made a parent (hence `Option (List Node)`). -/
inductive Node : Type where
  | mk (title : String) (page : Int) (children : Option (List Node)) : Node

/-- Title of a node. -/
def Node.title : Node → String
  | .mk t _ _ => t

/-- Page of a node. -/
def Node.page : Node → Int
  | .mk _ p _ => p

/-- Children entry of a node (`none` when the dict has no such key). -/
def Node.children : Node → Option (List Node)
  | .mk _ _ c => c

/-!
The Python builder keeps `parents`, a stack of aliased mutable lists:
the root list at the bottom and, above each entry, the `children` list
of the last node of that entry.  Appends always go to the top entry and
pops remove the top, so the whole stack is determined by the forest
being built together with the current depth `d` along the chain
"last node of the list, then its children" (the last-child spine): the
stack holds `d + 1` entries.  The helpers below navigate that spine;
`none` signals a navigation that the aliased stack could not have
produced, or a popped-below-root state, i.e. a raised `IndexError`.
-/

/-- List aliased by the stack entry at depth `d` (`parents[d]` in the
source; `parents[-1]` is `topList forest d` for a stack of depth
`d + 1`). -/
def topList : List Node → Nat → Option (List Node)
  | l, 0 => some l
  | l, d + 1 =>
    match l.getLast? with
    | some (Node.mk _ _ (some cs)) => topList cs d
    | _ => none

/-- Append a node to the list at depth `d` of the last-child spine
(the effect of `parents[-1].append(...)` on the owning forest). -/
def appendAt : List Node → Nat → Node → Option (List Node)
  | l, 0, x => some (l ++ [x])
  | l, d + 1, x =>
    match l.getLast? with
    | some (Node.mk t p (some cs)) =>
      (appendAt cs d x).map (fun cs2 => l.dropLast ++ [Node.mk t p (some cs2)])
    | _ => none

/-- Give the last node of the list at depth `d` a `children` list if it
has none (lines 71-73: `if 'children' not in last_item:
last_item['children'] = []`), keeping an existing one. -/
def ensureChildren : List Node → Nat → Option (List Node)
  | l, 0 =>
    match l.getLast? with
    | some (Node.mk t p none) => some (l.dropLast ++ [Node.mk t p (some [])])
    | some (Node.mk _ _ (some _)) => some l
    | none => none
  | l, d + 1 =>
    match l.getLast? with
    | some (Node.mk t p (some cs)) =>
      (ensureChildren cs d).map (fun cs2 => l.dropLast ++ [Node.mk t p (some cs2)])
    | _ => none

/-- Node appended for a record (line 81-84): only `title` and `page` are
stored; the `level` is consumed by the builder. -/
def newNode (r : FlatRecord) : Node :=
  Node.mk r.title r.page none

/-- One iteration of the loop of `create_bookmark_tree` (lines 64-86) on
the state `(forest, d, prev)` where `d + 1` is the stack depth:

* `level > prev_level`: if the top list is non-empty, give its last
  node a children list and push it (depth `d + 1`), else keep the
  depth; then append the new node to the top;
* `level < prev_level`: pop `prev_level - level` entries; popping the
  root list away (more pops than `d`) makes the following
  `parents[-1].append` (or a pop from the empty stack) raise, hence
  `none`;
* `level == prev_level`: append to the unchanged top. -/
def buildStep (forest : List Node) (d : Nat) (prev : Nat) (r : FlatRecord) :
    Option (List Node × Nat) :=
  if prev < r.level then
    match topList forest d with
    | none => none
    | some t =>
      if t.length > 0 then
        match ensureChildren forest d with
        | none => none
        | some f1 => (appendAt f1 (d + 1) (newNode r)).map (fun f => (f, d + 1))
      else
        (appendAt forest d (newNode r)).map (fun f => (f, d))
  else if r.level < prev then
    let n := prev - r.level
    if d < n then none
    else (appendAt forest (d - n) (newNode r)).map (fun f => (f, d - n))
  else
    (appendAt forest d (newNode r)).map (fun f => (f, d))

/-- Loop of `create_bookmark_tree` over the record list, threading the
forest, the stack depth and `prev_level`. -/
def buildGo : List FlatRecord → List Node → Nat → Nat → Option (List Node)
  | [], forest, _, _ => some forest
  | r :: rs, forest, d, prev =>
    match buildStep forest d prev r with
    | none => none
    | some (f, d2) => buildGo rs f d2 r.level

/-- Embedding of `create_bookmark_tree` (lines 58-88): start from the
empty root list, stack depth `0` (just the root list) and
`prev_level = 0`; `none` models the unguarded `IndexError` on a pop
below the root list. -/
def create_bookmark_tree (bookmarks : List FlatRecord) : Option (List Node) :=
  buildGo bookmarks [] 0 0

/-- Advisory warning printed by the range check (line 117): the record
title, its page shown 1-based, and the valid 1-based range. -/
structure RangeWarning where
  title : String
  shownPage : Int
  rangeLow : Nat
  rangeHigh : Nat
  deriving DecidableEq

/-- Embedding of the advisory range-check loop (lines 114-117): one
warning per record whose adjusted page is `< 0` or `>= total_pages`;
the loop only prints and blocks nothing. -/
def checkPageRange (bookmarks : List FlatRecord) (total : Nat) : List RangeWarning :=
  bookmarks.foldl
    (fun ws b =>
      if b.page < 0 ∨ (total : Int) ≤ b.page then
        ws ++ [⟨b.title, b.page + 1, 1, total⟩]
      else ws)
    []

/-- Clamp used at attach time (lines 127 and 148):
`max(0, min(page, total_pages - 1))`. -/
def clampPage (p : Int) (total : Nat) : Int :=
  max 0 (min p ((total : Int) - 1))

/-- Embedding of `add_bookmarks_recursively` (lines 124-144): walk the
node list in order, attach each node at its clamped page, recurse into
a `children` list when the key is present.  The attached entries are
returned in attachment (pre-)order as `(title, clamped page)`. -/
def add_bookmarks_recursively (total : Nat) : List Node → List (String × Int)
  | [] => []
  | Node.mk t p none :: ns =>
    (t, clampPage p total) :: add_bookmarks_recursively total ns
  | Node.mk t p (some cs) :: ns =>
    (t, clampPage p total) ::
      (add_bookmarks_recursively total cs ++ add_bookmarks_recursively total ns)

/-- Embedding of the top-level attachment loop (lines 146-157), which
repeats the clamp and the children test for the root nodes and calls
`add_bookmarks_recursively` for their children. -/
def attachTopLevel (total : Nat) : List Node → List (String × Int)
  | [] => []
  | Node.mk t p none :: ns =>
    (t, clampPage p total) :: attachTopLevel total ns
  | Node.mk t p (some cs) :: ns =>
    (t, clampPage p total) ::
      (add_bookmarks_recursively total cs ++ attachTopLevel total ns)

/-- Pre-order traversal of a forest, listing each node's stored
`(title, page)`. -/
def preorderList : List Node → List (String × Int)
  | [] => []
  | Node.mk t p none :: ns => (t, p) :: preorderList ns
  | Node.mk t p (some cs) :: ns => (t, p) :: (preorderList cs ++ preorderList ns)

/-- Outcomes of the external PDF collaborator (PyPDF2) and of the file
system, each step an `Except` so that a raised exception is a value:
reading the bookmark file (`open` at line 32), `PdfReader` and the
page count (lines 110-114), the page-copy loop (120-121), the
`add_outline_item` calls, and the final `open`/`write` (160-161). -/
structure PdfEnv where
  bookmarkLines : Except String (List String)
  readerPages : Except String Nat
  copyPages : Except String Unit
  attachOutline : Except String Unit
  writeOutput : Except String Unit

/-- Result of the two explicit `return` sites inside the `try` block of
`add_bookmarks_to_pdf`: the early `return False` for an empty record
list (line 104), or the successful completion carrying the attached
entries and the advisory warnings that were printed. -/
inductive RunOutcome : Type where
  | emptyAbort : RunOutcome
  | done (entries : List (String × Int)) (advisory : List RangeWarning) : RunOutcome

/-- Observable result of `add_bookmarks_to_pdf`: the boolean it returns,
the outline actually written to the output document (`none` when no
complete output was produced), and the error message reported on the
failure paths. -/
structure RunResult where
  success : Bool
  written : Option (List (String × Int))
  message : Option String
  deriving DecidableEq

/-- Body of the `try` block of `add_bookmarks_to_pdf` (lines 100-166), in
source order: parse, empty check, tree build (an `IndexError` becomes
a thrown message), reader and page count, advisory range check, page
copy, outline attachment, write. -/
def add_bookmarks_attempt (env : PdfEnv) (off : Int) : Except String RunOutcome := do
  let lines ← env.bookmarkLines
  let bookmarks := (parse_bookmark_file lines off).records
  if bookmarks.isEmpty then
    return RunOutcome.emptyAbort
  else
    match create_bookmark_tree bookmarks with
    | none => throw "list index out of range"
    | some tree => do
      let total ← env.readerPages
      let advisory := checkPageRange bookmarks total
      let _ ← env.copyPages
      let entries := attachTopLevel total tree
      let _ ← env.attachOutline
      let _ ← env.writeOutput
      return RunOutcome.done entries advisory

/-- Embedding of `add_bookmarks_to_pdf` (lines 90-170): the `try/except`
boundary turns every thrown message into a `False` result carrying the
message; the empty-records early return reports its own message; only
the fully successful path returns `True` with the written outline. -/
def add_bookmarks_to_pdf (env : PdfEnv) (off : Int) : RunResult :=
  match add_bookmarks_attempt env off with
  | Except.ok RunOutcome.emptyAbort => ⟨false, none, some "書籤數據為空"⟩
  | Except.ok (RunOutcome.done entries _) => ⟨true, some entries, none⟩
  | Except.error e => ⟨false, none, some e⟩

/-!
Helper lemmas. The preorder lemmas track how the spine operations of
the tree builder act on the pre-order listing of the forest; the fold
lemmas characterise the accumulating loops of the parser and of the
advisory range check.
-/

/-- Splitting the pre-order listing at the head node. -/
lemma preorderList_cons (n : Node) (ns : List Node) :
    preorderList (n :: ns) = preorderList [n] ++ preorderList ns := by
  cases n with
  | mk t p c =>
    cases c with
    | none => simp [preorderList]
    | some cs => simp [preorderList]

/-- Pre-order listing distributes over list append. -/
lemma preorderList_append (a b : List Node) :
    preorderList (a ++ b) = preorderList a ++ preorderList b := by
  induction a with
  | nil => simp [preorderList]
  | cons n ns ih =>
    rw [List.cons_append, preorderList_cons, ih, preorderList_cons n ns,
      List.append_assoc]

/-- A list with a known last element splits as its front part plus that
element. -/
lemma eq_dropLast_concat {α : Type} {l : List α} {a : α}
    (h : l.getLast? = some a) : l = l.dropLast ++ [a] :=
  (List.dropLast_append_getLast? a h).symm

/-- Appending a node along the last-child spine extends the pre-order
listing at its end. -/
lemma appendAt_preorder :
    ∀ (d : Nat) (l : List Node) (x : Node) (l2 : List Node),
      appendAt l d x = some l2 →
      preorderList l2 = preorderList l ++ preorderList [x] := by
  intro d
  induction d with
  | zero =>
    intro l x l2 h
    simp only [appendAt, Option.some.injEq] at h
    subst h
    exact preorderList_append l [x]
  | succ d ih =>
    intro l x l2 h
    simp only [appendAt] at h
    cases hg : l.getLast? with
    | none => rw [hg] at h; simp at h
    | some nd =>
      cases nd with
      | mk t p c =>
        cases c with
        | none => rw [hg] at h; simp at h
        | some cs =>
          rw [hg] at h
          simp only [Option.map_eq_some'] at h
          obtain ⟨cs2, hcs2, rfl⟩ := h
          have hR : preorderList l =
              preorderList l.dropLast ++ ((t, p) :: preorderList cs) := by
            conv_lhs => rw [eq_dropLast_concat hg]
            rw [preorderList_append]
            simp [preorderList]
          rw [preorderList_append, hR]
          simp [preorderList, ih cs x cs2 hcs2]

/-- Creating an empty `children` list does not change the pre-order
listing. -/
lemma ensureChildren_preorder :
    ∀ (d : Nat) (l : List Node) (l2 : List Node),
      ensureChildren l d = some l2 → preorderList l2 = preorderList l := by
  intro d
  induction d with
  | zero =>
    intro l l2 h
    simp only [ensureChildren] at h
    cases hg : l.getLast? with
    | none => rw [hg] at h; simp at h
    | some nd =>
      cases nd with
      | mk t p c =>
        cases c with
        | none =>
          rw [hg] at h
          simp only [Option.some.injEq] at h
          subst h
          conv_rhs => rw [eq_dropLast_concat hg]
          rw [preorderList_append, preorderList_append]
          simp [preorderList]
        | some cs =>
          rw [hg] at h
          simp only [Option.some.injEq] at h
          subst h
          rfl
  | succ d ih =>
    intro l l2 h
    simp only [ensureChildren] at h
    cases hg : l.getLast? with
    | none => rw [hg] at h; simp at h
    | some nd =>
      cases nd with
      | mk t p c =>
        cases c with
        | none => rw [hg] at h; simp at h
        | some cs =>
          rw [hg] at h
          simp only [Option.map_eq_some'] at h
          obtain ⟨cs2, hcs2, rfl⟩ := h
          conv_rhs => rw [eq_dropLast_concat hg]
          rw [preorderList_append, preorderList_append]
          simp [preorderList, ih cs cs2 hcs2]

/-- One builder iteration appends exactly the record's `(title, page)` at
the end of the pre-order listing. -/
lemma buildStep_preorder {forest : List Node} {d prev : Nat} {r : FlatRecord}
    {f2 : List Node} {d2 : Nat} (h : buildStep forest d prev r = some (f2, d2)) :
    preorderList f2 = preorderList forest ++ [(r.title, r.page)] := by
  have hx : preorderList [newNode r] = [(r.title, r.page)] := by
    simp [preorderList, newNode]
  unfold buildStep at h
  by_cases h1 : prev < r.level
  · rw [if_pos h1] at h
    cases ht : topList forest d with
    | none => rw [ht] at h; simp at h
    | some t =>
      simp only [ht] at h
      by_cases h2 : t.length > 0
      · rw [if_pos h2] at h
        cases he : ensureChildren forest d with
        | none => rw [he] at h; simp at h
        | some f1 =>
          rw [he] at h
          simp only [Option.map_eq_some'] at h
          obtain ⟨f3, ha, heq⟩ := h
          simp only [Prod.mk.injEq] at heq
          obtain ⟨rfl, rfl⟩ := heq
          rw [appendAt_preorder _ _ _ _ ha, ensureChildren_preorder _ _ _ he, hx]
      · rw [if_neg h2] at h
        simp only [Option.map_eq_some'] at h
        obtain ⟨f3, ha, heq⟩ := h
        simp only [Prod.mk.injEq] at heq
        obtain ⟨rfl, rfl⟩ := heq
        rw [appendAt_preorder _ _ _ _ ha, hx]
  · rw [if_neg h1] at h
    by_cases h3 : r.level < prev
    · rw [if_pos h3] at h
      by_cases h4 : d < prev - r.level
      · rw [if_pos h4] at h; simp at h
      · rw [if_neg h4] at h
        simp only [Option.map_eq_some'] at h
        obtain ⟨f3, ha, heq⟩ := h
        simp only [Prod.mk.injEq] at heq
        obtain ⟨rfl, rfl⟩ := heq
        rw [appendAt_preorder _ _ _ _ ha, hx]
    · rw [if_neg h3] at h
      simp only [Option.map_eq_some'] at h
      obtain ⟨f3, ha, heq⟩ := h
      simp only [Prod.mk.injEq] at heq
      obtain ⟨rfl, rfl⟩ := heq
      rw [appendAt_preorder _ _ _ _ ha, hx]

/-- The builder loop extends the pre-order listing by the records it
consumes, in order. -/
lemma buildGo_preorder :
    ∀ (rs : List FlatRecord) (forest : List Node) (d prev : Nat)
      (final : List Node), buildGo rs forest d prev = some final →
      preorderList final =
        preorderList forest ++ rs.map (fun r => (r.title, r.page)) := by
  intro rs
  induction rs with
  | nil =>
    intro forest d prev final h
    simp only [buildGo, Option.some.injEq] at h
    subst h
    simp
  | cons r rest ih =>
    intro forest d prev final h
    simp only [buildGo] at h
    cases hs : buildStep forest d prev r with
    | none => rw [hs] at h; simp at h
    | some p2 =>
      rw [hs] at h
      obtain ⟨f2, d2⟩ := p2
      rw [ih f2 d2 r.level final h, buildStep_preorder hs]
      simp

/-- The advisory range-check loop, characterised: starting from any
accumulator it appends one warning per out-of-range record, in
order. -/
lemma checkFold (total : Nat) :
    ∀ (l : List FlatRecord) (acc : List RangeWarning),
      l.foldl
          (fun ws b =>
            if b.page < 0 ∨ (total : Int) ≤ b.page then
              ws ++ [⟨b.title, b.page + 1, 1, total⟩]
            else ws)
          acc
        = acc ++
          (l.filter (fun b => decide (b.page < 0 ∨ (total : Int) ≤ b.page))).map
            (fun b => (⟨b.title, b.page + 1, 1, total⟩ : RangeWarning)) := by
  intro l
  induction l with
  | nil => intro acc; simp
  | cons b rest ih =>
    intro acc
    rw [List.foldl_cons]
    by_cases hb : b.page < 0 ∨ (total : Int) ≤ b.page
    · rw [if_pos hb, ih, List.filter_cons]
      simp [hb]
    · rw [if_neg hb, ih, List.filter_cons]
      simp [hb]

/-- The recursive attachment walker visits the forest in pre-order and
attaches every node at its clamped page. -/
lemma add_bookmarks_recursively_eq (total : Nat) (l : List Node) :
    add_bookmarks_recursively total l =
      (preorderList l).map (fun e => (e.1, clampPage e.2 total)) := by
  induction l using add_bookmarks_recursively.induct total with
  | case1 => simp [add_bookmarks_recursively, preorderList]
  | case2 t p ns ih => simp [add_bookmarks_recursively, preorderList, ih]
  | case3 t p cs ns ih1 ih2 =>
    simp [add_bookmarks_recursively, preorderList, ih1, ih2]

/-- The top-level attachment loop likewise attaches the whole forest in
pre-order at clamped pages. -/
lemma attachTopLevel_eq (total : Nat) (l : List Node) :
    attachTopLevel total l =
      (preorderList l).map (fun e => (e.1, clampPage e.2 total)) := by
  induction l with
  | nil => simp [attachTopLevel, preorderList]
  | cons n ns ih =>
    cases n with
    | mk t p c =>
      cases c with
      | none => simp [attachTopLevel, preorderList, ih]
      | some cs =>
        simp [attachTopLevel, preorderList, ih, add_bookmarks_recursively_eq]

/-- The parser loop, characterised: starting from any accumulator it
appends the per-line records and warnings in line order. -/
lemma parseFold (off : Int) :
    ∀ (lines : List String) (acc : ParseResult),
      List.foldl (parseLineStep off) acc lines =
        ⟨acc.records ++ lines.filterMap (lineRecord off),
          acc.warnings ++ lines.filterMap lineWarning⟩ := by
  intro lines
  induction lines with
  | nil => intro acc; simp
  | cons line rest ih =>
    intro acc
    rw [List.foldl_cons, ih]
    unfold parseLineStep lineRecord lineWarning
    cases hs : skipLine (stripLine line)
    · cases hm : matchLine (stripLine line) with
      | none => simp [hs, hm]
      | some v =>
        obtain ⟨lv, t, p⟩ := v
        simp [hs, hm]
    · simp [hs]

/-- A line that the regex matches is neither empty nor a comment line:
its first character is a digit. -/
lemma matchLine_not_skip {s : String} {v : Nat × String × Nat}
    (h : matchLine s = some v) : skipLine s = false := by
  unfold matchLine at h
  by_cases hd : (s.data.takeWhile Char.isDigit).isEmpty
  · rw [if_pos hd] at h
    simp at h
  · unfold skipLine
    cases hs : s.data with
    | nil => rw [hs] at hd; simp at hd
    | cons c cs =>
      rw [hs] at hd
      by_cases hc : Char.isDigit c
      · have hne : c ≠ '#' := by
          intro e
          rw [e] at hc
          exact absurd hc (by decide)
        simp [hne]
      · rw [List.takeWhile_cons, if_neg hc] at hd
        simp at hd

/-!
Claim theorems.
-/

/-- Claim C1, counterexample: on the record sequence with levels `1,3,1`
(titles A,B,C), `create_bookmark_tree` does not return the forest
`[A{children:[B]}, C]` — the builder fails instead, so the claimed
output is false at this concrete input. -/
theorem c1_counterexample :
    ¬ (create_bookmark_tree [⟨1, "A", 0⟩, ⟨3, "B", 1⟩, ⟨1, "C", 2⟩] =
        some [Node.mk "A" 0 (some [Node.mk "B" 1 none]), Node.mk "C" 2 none]) := by
  intro h
  exact Option.noConfusion h

/-- Claim C1, amended: on levels `1,3,1` the builder returns no forest at
all: the descent from level 1 to level 3 pushes only one stack entry,
while the ascent from 3 back to 1 pops two, removing the root list, so
the append that follows is out of bounds (`IndexError` in the source),
modelled as `none`. -/
theorem c1_amended :
    create_bookmark_tree [⟨1, "A", 0⟩, ⟨3, "B", 1⟩, ⟨1, "C", 2⟩] = none := rfl

/-- Claim C2: the ascend step pops exactly `previous_level - record.level`
entries with no underflow guard — whenever the pop count exceeds the
available depth `d` the step fails (first conjunct), and the concrete
input with levels `2` then `1` drives the whole builder into that
error branch from its initial state (second conjunct). -/
theorem c2 :
    (∀ (forest : List Node) (d prev : Nat) (r : FlatRecord),
        r.level < prev → d < prev - r.level → buildStep forest d prev r = none)
    ∧ create_bookmark_tree [⟨2, "A", 0⟩, ⟨1, "B", 1⟩] = none := by
  constructor
  · intro forest d prev r h1 h2
    unfold buildStep
    rw [if_neg (by omega), if_pos h1, if_pos h2]
  · rfl

/-- Claim C2 witness: the underflow lemma applied at the concrete state
reached after a first record of level 2 (stack depth 0, previous
level 2) and a next record of level 1. -/
theorem c2_witness : buildStep [] 0 2 ⟨1, "W", 0⟩ = none :=
  c2.1 [] 0 2 ⟨1, "W", 0⟩ (by decide) (by decide)

/-- Claim C3: levels `1,2,2,1` with titles A,B,C,D yield the forest
`[A{children:[B,C]}, D]` — B and C in input order as children of A,
and D a second root. -/
theorem c3 :
    create_bookmark_tree [⟨1, "A", 0⟩, ⟨2, "B", 1⟩, ⟨2, "C", 2⟩, ⟨1, "D", 3⟩] =
      some [Node.mk "A" 0 (some [Node.mk "B" 1 none, Node.mk "C" 2 none]),
        Node.mk "D" 3 none] := rfl

/-- Claim C4: when a record's level exceeds `previous_level` but the list
on top of the stack is empty, no new list is pushed and the node is
appended to that same top list at the unchanged depth (first
conjunct); in particular the first record of every non-empty input is
appended to the root list regardless of its level, the builder
continuing from the one-node root forest (second conjunct). -/
theorem c4 :
    (∀ (forest : List Node) (d prev : Nat) (r : FlatRecord),
        prev < r.level → topList forest d = some [] →
        buildStep forest d prev r =
          (appendAt forest d (newNode r)).map (fun f => (f, d)))
    ∧ (∀ (r : FlatRecord) (rs : List FlatRecord),
        create_bookmark_tree (r :: rs) = buildGo rs [newNode r] 0 r.level) := by
  constructor
  · intro forest d prev r h1 h2
    unfold buildStep
    rw [if_pos h1]
    simp only [h2]
    simp
  · intro r rs
    have hstep : buildStep [] 0 0 r = some ([newNode r], 0) := by
      rcases Nat.eq_zero_or_pos r.level with h | h
      · unfold buildStep
        rw [if_neg (by omega), if_neg (by omega)]
        simp [appendAt]
      · unfold buildStep
        rw [if_pos h]
        simp [topList, appendAt]
    have hGo : buildGo (r :: rs) [] 0 0 =
        match buildStep [] 0 0 r with
        | none => none
        | some (f, d2) => buildGo rs f d2 r.level := rfl
    show buildGo (r :: rs) [] 0 0 = buildGo rs [newNode r] 0 r.level
    rw [hGo, hstep]

/-- Claim C4 witness: a first record of level 7 on the empty root forest
takes the empty-top branch and is appended to the root list at
depth 0. -/
theorem c4_witness :
    buildStep [] 0 0 ⟨7, "F", 1⟩ =
      (appendAt [] 0 (newNode ⟨7, "F", 1⟩)).map (fun f => (f, 0)) :=
  c4.1 [] 0 0 ⟨7, "F", 1⟩ (by decide) rfl

/-- Claim C5: the advisory check warns exactly once per record whose
adjusted page is below 0 or at least `total_pages`, naming its title
and the valid 1-based range `1..total_pages`, and warns for no
in-range record (first conjunct); attachment visits every node of the
forest and uses the clamped page `max 0 (min page (total_pages - 1))`
for each, rejecting none (second conjunct). -/
theorem c5 (records : List FlatRecord) (total : Nat) (forest : List Node) :
    checkPageRange records total =
      (records.filter (fun b => decide (b.page < 0 ∨ (total : Int) ≤ b.page))).map
        (fun b => (⟨b.title, b.page + 1, 1, total⟩ : RangeWarning))
    ∧ attachTopLevel total forest =
      (preorderList forest).map (fun e => (e.1, clampPage e.2 total)) := by
  constructor
  · have := checkFold total records []
    simpa [checkPageRange] using this
  · exact attachTopLevel_eq total forest

/-- Claim C6: when parsing yields no records the operation reports failure
and writes no output, whatever the PDF collaborator would have done. -/
theorem c6 (env : PdfEnv) (off : Int) (lines : List String)
    (h1 : env.bookmarkLines = Except.ok lines)
    (h2 : (parse_bookmark_file lines off).records = []) :
    add_bookmarks_to_pdf env off =
      ⟨false, none, some "書籤數據為空"⟩ := by
  unfold add_bookmarks_to_pdf add_bookmarks_attempt
  rw [h1]
  simp [bind, Except.bind, pure, Except.pure, h2]

/-- Claim C6 witness: a bookmark file holding only a comment line and a
blank line aborts the run with no output written. -/
theorem c6_witness :
    add_bookmarks_to_pdf
        ⟨Except.ok ["# note", "   "], Except.ok 3, Except.ok (), Except.ok (),
          Except.ok ()⟩ 0 =
      ⟨false, none, some "書籤數據為空"⟩ :=
  c6 _ 0 ["# note", "   "] rfl (by decide)

/-- Claim C7: the parser keeps exactly the records of the matching lines
and one warning per non-matching non-skipped line, both in input
order, for every input (first conjunct); concretely, one unparsable
line among three valid ones yields exactly the three valid records and
exactly one warning, with no exception (the parser is total by
construction) (second conjunct). -/
theorem c7 :
    (∀ (lines : List String) (off : Int),
        parse_bookmark_file lines off =
          ⟨lines.filterMap (lineRecord off), lines.filterMap lineWarning⟩)
    ∧ parse_bookmark_file
        ["1 Intro 1", "not a bookmark", "2 Basics 3", "1 End 9"] 0 =
      ⟨[⟨1, "Intro", 0⟩, ⟨2, "Basics", 2⟩, ⟨1, "End", 8⟩], ["not a bookmark"]⟩ := by
  constructor
  · intro lines off
    have := parseFold off lines ⟨[], []⟩
    simpa [parse_bookmark_file] using this
  · decide

/-- Claim C8: every line the regex matches with one-based page `p`
produces, under offset `o`, a record whose adjusted page is exactly
`p + o - 1`, unclamped. -/
theorem c8 (line : String) (off : Int) (lv : Nat) (t : String) (p : Nat)
    (h : matchLine (stripLine line) = some (lv, t, p)) :
    parse_bookmark_file [line] off = ⟨[⟨lv, t, (p : Int) + off - 1⟩], []⟩ := by
  unfold parse_bookmark_file
  rw [List.foldl_cons, List.foldl_nil]
  unfold parseLineStep
  simp [matchLine_not_skip h, h]

/-- Claim C8 witness: page 5 with offset 4 yields adjusted page 8; the
same theorem with offset -10 would yield -6, showing no clamping. -/
theorem c8_witness :
    parse_bookmark_file ["1 Foo 5"] 4 = ⟨[⟨1, "Foo", 8⟩], []⟩ := by
  have h := c8 "1 Foo 5" 4 1 "Foo" 5 (by decide)
  norm_num at h
  exact h

/-- Claim C9: every exception thrown anywhere inside the operation's body
(bookmark-file read, tree build, PDF read, page copy, attachment,
write) is caught at the boundary and converted to a `False` result
carrying the message; no exception escapes `add_bookmarks_to_pdf`,
whose result type has no failure component. -/
theorem c9 (env : PdfEnv) (off : Int) (e : String)
    (h : add_bookmarks_attempt env off = Except.error e) :
    add_bookmarks_to_pdf env off = ⟨false, none, some e⟩ := by
  unfold add_bookmarks_to_pdf
  rw [h]

/-- Claim C9 witness: a failing PDF read (after one valid bookmark line)
is converted to a `False` result carrying its message. -/
theorem c9_witness :
    add_bookmarks_to_pdf
        ⟨Except.ok ["1 A 1"], Except.error "oops", Except.ok (), Except.ok (),
          Except.ok ()⟩ 0 =
      ⟨false, none, some "oops"⟩ :=
  c9 _ 0 "oops" rfl

/-- Claim C10: whenever the builder completes without error, the pre-order
listing of the returned forest is exactly the input records' titles
and pages, one node per record, in input order (the level is consumed
and not stored). -/
theorem c10 (records : List FlatRecord) (forest : List Node)
    (h : create_bookmark_tree records = some forest) :
    preorderList forest = records.map (fun r => (r.title, r.page)) := by
  unfold create_bookmark_tree at h
  have := buildGo_preorder records [] 0 0 forest h
  simpa [preorderList] using this

/-- Claim C10 witness: the two-record input with levels 1,2 builds a
two-node forest whose pre-order listing is the records in order. -/
theorem c10_witness :
    preorderList [Node.mk "X" 0 (some [Node.mk "Y" 1 none])] =
      List.map (fun r => (r.title, r.page))
        ([⟨1, "X", 0⟩, ⟨2, "Y", 1⟩] : List FlatRecord) :=
  c10 [⟨1, "X", 0⟩, ⟨2, "Y", 1⟩] [Node.mk "X" 0 (some [Node.mk "Y" 1 none])] rfl

end PdfMarker
